import Mathlib

/-!
Verification of the time-window scheduling engine of the geohex-uberizer
repository. Times of day are represented by their value in minutes since
midnight: the source stores times as zero-padded "HH:MM" strings and converts
with timeToMinutes / minutesToTime before every comparison or arithmetic
operation, and on the reachable range of values (minute counts below 100
hours) the string order used by the sort comparator coincides with the
numeric order, so the minute representation is faithful.
-/

/-- The TimeSlot record of src/types/scheduling: start and end of a slot, in
minutes since midnight, plus the isAvailable display flag. The source field
named end is written with guillemets because end is a Lean keyword. -/
structure TimeSlot where
  start : Nat
  «end» : Nat
  isAvailable : Bool
deriving DecidableEq, Repr

/-- The ScheduledHexagon record of src/types/scheduling: one cell-to-slot
assignment. customDuration is optional in the source (absent on slots created
by the canonical-slot path). -/
structure ScheduledHexagon where
  hexagonId : String
  hexagonNumber : Nat
  timeSlot : TimeSlot
  polygonId : Nat
  customDuration : Option Nat
deriving DecidableEq, Repr

/-- timeToMinutes of the default minStartTime string "16:30". -/
def defaultMinStartTime : Nat := 16 * 60 + 30

/-- timeToMinutes of the default maxEndTime string "20:00". -/
def defaultMaxEndTime : Nat := 20 * 60

/-- generateTimeSlots of scheduling-utils: 14 slots of 15 minutes starting at
16:30, each start and end recombined from hour and minute parts exactly as the
source computes them. -/
def generateTimeSlots : List TimeSlot :=
  (List.range 14).map (fun i =>
    let startMinutes := 30 + i * 15
    let startTotal := (16 + startMinutes / 60) * 60 + startMinutes % 60
    let endMinutes := startMinutes + 15
    let endTotal := (16 + endMinutes / 60) * 60 + endMinutes % 60
    { start := startTotal, «end» := endTotal, isAvailable := true })

/-- getAvailableTimeSlots of scheduling-utils: keep the slots whose start is
not the start of any assigned slot (the source collects assigned starts in a
Set and filters by membership), then re-mark them available. -/
def getAvailableTimeSlots (allSlots : List TimeSlot) (assignedSlots : List TimeSlot) :
    List TimeSlot :=
  (allSlots.filter (fun slot => ¬ assignedSlots.any (fun a => a.start = slot.start))).map
    (fun slot => { slot with isAvailable := true })

/-- getNextAvailableTimeSlot of scheduling-utils: first available slot, none
when every canonical start is taken. -/
def getNextAvailableTimeSlot (allSlots : List TimeSlot) (assignedSlots : List TimeSlot) :
    Option TimeSlot :=
  (getAvailableTimeSlots allSlots assignedSlots).head?

/-- The comparator of sortScheduledHexagonsByTime, as a relation: the source
comparator returns -1, 1, or 0 after comparing the zero-padded start strings,
which orders assignments by slot start. -/
def hexLE (a b : ScheduledHexagon) : Prop := a.timeSlot.start ≤ b.timeSlot.start

instance : DecidableRel hexLE := fun a b => inferInstanceAs (Decidable (_ ≤ _))

instance : IsTotal ScheduledHexagon hexLE := ⟨fun _ _ => Nat.le_total _ _⟩

instance : IsTrans ScheduledHexagon hexLE := ⟨fun _ _ _ h1 h2 => Nat.le_trans h1 h2⟩

/-- sortScheduledHexagonsByTime of scheduling-utils: a stable sort of a copy of
the list under the start-time comparator (Array.prototype.sort is stable, and
insertion sort models a stable sort). -/
def sortScheduledHexagonsByTime (hexagons : List ScheduledHexagon) : List ScheduledHexagon :=
  hexagons.insertionSort hexLE

/-- getHexagonNumber of scheduling-utils: indexOf plus one, with the JS
indexOf result -1 for a missing id mapping to 0. -/
def getHexagonNumber (hexagonId : String) (allHexagons : List String) : Nat :=
  match allHexagons.findIdx? (fun x => x = hexagonId) with
  | some i => i + 1
  | none => 0

/-- timeToMinutes composed with its inverse is the identity on the minute
representation, so createCustomTimeSlot just adds the duration. -/
def createCustomTimeSlot (startTime : Nat) (durationMinutes : Nat) : TimeSlot :=
  { start := startTime, «end» := startTime + durationMinutes, isAvailable := true }

/-- doTimeSlotsOverlap of scheduling-utils: half-open interval intersection on
the minute values of the two slots. -/
def doTimeSlotsOverlap (slot1 slot2 : TimeSlot) : Bool :=
  slot1.start < slot2.«end» ∧ slot2.start < slot1.«end»

/-- The five distinct error return sites of validateCustomTimeSlot, one
constructor per source error message: "Duration must be at least 5 minutes",
"Duration cannot exceed 2 hours", "Start time must be after ...",
"End time must be before ...", and the overlap message. -/
inductive ValidationError where
  | durationTooShort
  | durationTooLong
  | startsBeforeWindow
  | endsAfterWindow
  | overlapsExisting
deriving DecidableEq, Repr

/-- validateCustomTimeSlot of scheduling-utils, with the TimeValidationResult
record modelled as Option ValidationError (none means isValid) and the window
arguments passed explicitly (the source defaults them to "16:30" and
"20:00"). -/
def validateCustomTimeSlot (startTime : Nat) (durationMinutes : Nat)
    (existingSlots : List TimeSlot) (minStartTime : Nat) (maxEndTime : Nat) :
    Option ValidationError :=
  if durationMinutes < 5 then some .durationTooShort
  else if durationMinutes > 120 then some .durationTooLong
  else
    let startMinutes := startTime
    let endMinutes := startMinutes + durationMinutes
    if startMinutes < minStartTime then some .startsBeforeWindow
    else if endMinutes > maxEndTime then some .endsAfterWindow
    else
      let newSlot := createCustomTimeSlot startTime durationMinutes
      if existingSlots.any (fun s => doTimeSlotsOverlap newSlot s) then some .overlapsExisting
      else none

/-- getLatestEndTime of scheduling-utils: "16:30" for the empty list, else the
end of the last element of the sorted copy. -/
def getLatestEndTime (scheduledHexagons : List ScheduledHexagon) : Nat :=
  if scheduledHexagons.length = 0 then defaultMinStartTime
  else
    match (sortScheduledHexagonsByTime scheduledHexagons).getLast? with
    | some latestHexagon => latestHexagon.timeSlot.«end»
    | none => defaultMinStartTime

/-- getSuggestedStartTime of scheduling-utils: alias for getLatestEndTime. -/
def getSuggestedStartTime (scheduledHexagons : List ScheduledHexagon) : Nat :=
  getLatestEndTime scheduledHexagons

/-- The duration the cascade loop reads for an assignment: customDuration when
present, else the width of the current slot. -/
def durationOf (h : ScheduledHexagon) : Nat :=
  match h.customDuration with
  | some d => d
  | none => h.timeSlot.«end» - h.timeSlot.start

/-- The loop of handleCustomTimeSlotSelect over the assignments after the
edited index: each one restarts at the end of its (already recomputed)
predecessor, keeps its duration, and records that duration as
customDuration. -/
def reflowAfter (prevEnd : Nat) : List ScheduledHexagon → List ScheduledHexagon
  | [] => []
  | h :: rest =>
    let dur := durationOf h
    { h with timeSlot := { h.timeSlot with start := prevEnd, «end» := prevEnd + dur },
             customDuration := some dur } :: reflowAfter (prevEnd + dur) rest

/-- The in-place update of the edited assignment in handleCustomTimeSlotSelect:
copy the record, overwrite start and end of its slot from the submitted slot,
and set customDuration. -/
def editAt (slot : TimeSlot) (duration : Nat) (h : ScheduledHexagon) : ScheduledHexagon :=
  { h with timeSlot := { h.timeSlot with start := slot.start, «end» := slot.«end» },
           customDuration := some duration }

/-- The working copy built by the edit branch of handleCustomTimeSlotSelect:
the sorted list with the element at idx replaced by the edited record and
every later element reflowed. When idx is out of range the copy is the sorted
list itself; the source never reaches that case because idx comes from
findIndex after a successful membership test. -/
def buildUpdated (slot : TimeSlot) (duration : Nat) (sorted : List ScheduledHexagon)
    (idx : Nat) : List ScheduledHexagon :=
  match sorted.drop idx with
  | [] => sorted
  | h :: rest =>
    sorted.take idx ++
      editAt slot duration h :: reflowAfter (editAt slot duration h).timeSlot.«end» rest

/-- handleCustomTimeSlotSelect of schedule-editor, as a function from the local
scheduled list to the next local scheduled list. The edit branch sorts, finds
the edited index, builds the working copy, rejects it unless the last end is
at most 20:00, and otherwise maps the working copy back over the original
order by hexagonId (the source builds a Map keyed by hexagonId; find? matches
it since a schedule holds each cell at most once). The other branch appends a
new assignment. -/
def handleCustomTimeSlotSelect (selectedHexagonForCustomTime : Option String)
    (availableHexagons : List String) (timeSlot : TimeSlot) (duration : Nat)
    (localScheduledHexagons : List ScheduledHexagon) : List ScheduledHexagon :=
  match selectedHexagonForCustomTime with
  | none => localScheduledHexagons
  | some hexId =>
    if localScheduledHexagons.any (fun h => h.hexagonId = hexId) then
      let sorted := sortScheduledHexagonsByTime localScheduledHexagons
      match sorted.findIdx? (fun h => h.hexagonId = hexId) with
      | none => localScheduledHexagons
      | some idx =>
        let updated := buildUpdated timeSlot duration sorted idx
        let lastEndMinutes :=
          match updated.getLast? with
          | some h => h.timeSlot.«end»
          | none => 0
        if lastEndMinutes > defaultMaxEndTime then localScheduledHexagons
        else
          localScheduledHexagons.map (fun h =>
            match updated.find? (fun u => u.hexagonId = h.hexagonId) with
            | some u => u
            | none => h)
    else
      localScheduledHexagons ++
        [{ hexagonId := hexId,
           hexagonNumber := getHexagonNumber hexId availableHexagons,
           timeSlot := timeSlot,
           polygonId := 0,
           customDuration := some duration }]

/-- existingSlotsForValidation of schedule-editor: the set of slots the custom
time input validates against. All current slots when creating; when editing an
existing assignment, only the slots of the assignments strictly before it in
the sorted order, and the empty list when it is chronologically first (the
source tests idx <= 0, which also covers the unreachable findIndex = -1). -/
def existingSlotsForValidation (selectedHexagonForCustomTime : Option String)
    (currentScheduledHexagons : List ScheduledHexagon) : List TimeSlot :=
  let assignedTimeSlots := currentScheduledHexagons.map (fun h => h.timeSlot)
  match selectedHexagonForCustomTime with
  | none => assignedTimeSlots
  | some hexId =>
    if currentScheduledHexagons.any (fun h => h.hexagonId = hexId) then
      let sorted := sortScheduledHexagonsByTime currentScheduledHexagons
      match sorted.findIdx? (fun h => h.hexagonId = hexId) with
      | none => []
      | some idx => if idx = 0 then [] else (sorted.take idx).map (fun h => h.timeSlot)
    else assignedTimeSlots

/-- handleRemoveHexagon of schedule-editor: filter the assignment of the given
cell out of the local list. -/
def handleRemoveHexagon (hexagonId : String) (localScheduledHexagons : List ScheduledHexagon) :
    List ScheduledHexagon :=
  localScheduledHexagons.filter (fun h => ¬ h.hexagonId = hexagonId)

/-- handleHexagonSelect of the page component: give the cell the next
available canonical slot and append, or leave the schedule unchanged if no
canonical start is free. The display number and the polygon id are computed
from UI state and passed through here. -/
def handleHexagonSelect (hexagonId : String) (hexagonNumber : Nat) (polygonId : Nat)
    (scheduledHexagons : List ScheduledHexagon) : List ScheduledHexagon :=
  match getNextAvailableTimeSlot generateTimeSlots (scheduledHexagons.map (fun h => h.timeSlot)) with
  | none => scheduledHexagons
  | some nextSlot =>
    scheduledHexagons ++
      [{ hexagonId := hexagonId,
         hexagonNumber := hexagonNumber,
         timeSlot := nextSlot,
         polygonId := polygonId,
         customDuration := none }]

/-- The schedule states reachable through the mutation operations of the
program: the empty schedule; submitting a custom time for a cell (the custom
time input only fires its callback when validateCustomTimeSlot accepts the
candidate against existingSlotsForValidation, and hands over
createCustomTimeSlot startTime duration); auto-assigning the next canonical
slot on map selection; and removing a cell. -/
inductive ReachableSchedule (avail : List String) : List ScheduledHexagon → Prop where
  | empty : ReachableSchedule avail []
  | selectTime (hs : List ScheduledHexagon) (hexId : String) (s d : Nat) :
      ReachableSchedule avail hs →
      validateCustomTimeSlot s d (existingSlotsForValidation (some hexId) hs)
        defaultMinStartTime defaultMaxEndTime = none →
      ReachableSchedule avail
        (handleCustomTimeSlotSelect (some hexId) avail (createCustomTimeSlot s d) d hs)
  | autoAssign (hs : List ScheduledHexagon) (hexId : String) (n pid : Nat) :
      ReachableSchedule avail hs →
      ReachableSchedule avail (handleHexagonSelect hexId n pid hs)
  | remove (hs : List ScheduledHexagon) (hexId : String) :
      ReachableSchedule avail hs →
      ReachableSchedule avail (handleRemoveHexagon hexId hs)

/-- A slot lies inside the operating window. -/
def slotInWindow (t : TimeSlot) : Prop :=
  defaultMinStartTime ≤ t.start ∧ t.«end» ≤ defaultMaxEndTime

/-- Assignment A of the worked example of the spec: slot 16:30 to 16:45,
duration 15 minutes. -/
def exA : ScheduledHexagon :=
  { hexagonId := "A", hexagonNumber := 1,
    timeSlot := { start := 990, «end» := 1005, isAvailable := true },
    polygonId := 0, customDuration := some 15 }

/-- Assignment B of the worked example: slot 16:45 to 17:00, duration 15. -/
def exB : ScheduledHexagon :=
  { hexagonId := "B", hexagonNumber := 2,
    timeSlot := { start := 1005, «end» := 1020, isAvailable := true },
    polygonId := 0, customDuration := some 15 }

/-- Assignment C of the worked example: slot 17:00 to 17:20, duration 20. -/
def exC : ScheduledHexagon :=
  { hexagonId := "C", hexagonNumber := 3,
    timeSlot := { start := 1020, «end» := 1040, isAvailable := true },
    polygonId := 0, customDuration := some 20 }

/-- The three-assignment schedule of the worked example. -/
def exampleABC : List ScheduledHexagon := [exA, exB, exC]

/-- A cell list for the worked example. -/
def exampleAvail : List String := ["A", "B", "C"]

/-- First assignment of the counterexample run: cell A at 17:00 to 18:00. -/
def cexHexA : ScheduledHexagon :=
  { hexagonId := "A", hexagonNumber := 1,
    timeSlot := { start := 1020, «end» := 1080, isAvailable := true },
    polygonId := 0, customDuration := some 60 }

/-- Second assignment of the counterexample run: cell B at 18:00 to 18:15. -/
def cexHexB : ScheduledHexagon :=
  { hexagonId := "B", hexagonNumber := 2,
    timeSlot := { start := 1080, «end» := 1095, isAvailable := true },
    polygonId := 0, customDuration := some 15 }

/-- Third assignment of the counterexample run: cell C at 18:15 to 18:45. -/
def cexHexC : ScheduledHexagon :=
  { hexagonId := "C", hexagonNumber := 3,
    timeSlot := { start := 1095, «end» := 1125, isAvailable := true },
    polygonId := 0, customDuration := some 30 }

/-- Cell B after the cascade edit that moves it to 16:30 to 16:45. -/
def cexHexB2 : ScheduledHexagon :=
  { hexagonId := "B", hexagonNumber := 2,
    timeSlot := { start := 990, «end» := 1005, isAvailable := true },
    polygonId := 0, customDuration := some 15 }

/-- Cell C after that cascade edit: reflowed to 16:45 to 17:15, which overlaps
the untouched cell A at 17:00 to 18:00. -/
def cexHexC2 : ScheduledHexagon :=
  { hexagonId := "C", hexagonNumber := 3,
    timeSlot := { start := 1005, «end» := 1035, isAvailable := true },
    polygonId := 0, customDuration := some 30 }

/-- The schedule reached by adding A, B, C with valid custom times and then
editing B to start 16:30: the reflowed C overlaps A. -/
def cexBad : List ScheduledHexagon := [cexHexA, cexHexB2, cexHexC2]

/-- C6: the overlap predicate is exactly the half-open interval test; touching
slots do not overlap, and a candidate starting exactly at the end of the
occupied slot 16:30 to 16:45 validates successfully. -/
theorem c6_overlap_halfopen (a b : TimeSlot) :
    (doTimeSlotsOverlap a b = true ↔ (a.start < b.«end» ∧ b.start < a.«end»)) ∧
    doTimeSlotsOverlap exA.timeSlot exB.timeSlot = false ∧
    validateCustomTimeSlot 1005 15 [exA.timeSlot] defaultMinStartTime defaultMaxEndTime = none := by
  refine ⟨?_, by decide, by decide⟩
  simp [doTimeSlotsOverlap]

/-- C7: the slot generator yields exactly 14 slots, each 15 minutes wide, each
starting where the previous one ends (hence pairwise non-overlapping), first
16:30 to 16:45 and last 19:45 to 20:00. -/
theorem c7_slot_generator :
    generateTimeSlots.length = 14 ∧
    (∀ s ∈ generateTimeSlots, s.«end» = s.start + 15) ∧
    (generateTimeSlots.zip generateTimeSlots.tail).all
      (fun p => p.2.start = p.1.«end») = true ∧
    (∀ a ∈ generateTimeSlots, ∀ b ∈ generateTimeSlots,
      a ≠ b → doTimeSlotsOverlap a b = false) ∧
    generateTimeSlots.head? = some { start := 990, «end» := 1005, isAvailable := true } ∧
    generateTimeSlots.getLast? = some { start := 1185, «end» := 1200, isAvailable := true } := by
  refine ⟨by decide, by decide, by decide, by decide, by decide, by decide⟩


/-- C9: removing a cell keeps every other assignment with its exact record,
introduces nothing new, removes exactly the assignments of that cell, and in
the worked example removing B leaves A and C untouched. -/
theorem c9_removal_frame (cellId : String) (hs : List ScheduledHexagon) :
    (∀ h ∈ hs, ¬ h.hexagonId = cellId → h ∈ handleRemoveHexagon cellId hs) ∧
    (∀ h ∈ handleRemoveHexagon cellId hs, h ∈ hs ∧ ¬ h.hexagonId = cellId) ∧
    (handleRemoveHexagon cellId hs).length =
      hs.length - (hs.filter (fun h => h.hexagonId = cellId)).length ∧
    handleRemoveHexagon "B" exampleABC = [exA, exC] := by
  refine ⟨?_, ?_, ?_, by decide⟩
  · intro h hm hne
    unfold handleRemoveHexagon
    simp only [List.mem_filter]
    exact ⟨hm, by simpa using hne⟩
  · intro h hm
    unfold handleRemoveHexagon at hm
    simp only [List.mem_filter] at hm
    exact ⟨hm.1, by simpa using hm.2⟩
  · unfold handleRemoveHexagon
    have h2 := @List.length_eq_length_filter_add _ hs (fun h => decide (h.hexagonId = cellId))
    simp only [decide_not]
    simp only at h2
    omega

/-- C3: the validator applies its checks in a fixed order with first failure
winning; each error is returned exactly on its guard with every earlier guard
passing, validity means all guards pass, and the two window examples fail as
the spec states. -/
theorem c3_validator_order (s d : Nat) (slots : List TimeSlot) :
    (validateCustomTimeSlot s d slots defaultMinStartTime defaultMaxEndTime =
        some .durationTooShort ↔ d < 5) ∧
    (validateCustomTimeSlot s d slots defaultMinStartTime defaultMaxEndTime =
        some .durationTooLong ↔ 5 ≤ d ∧ 120 < d) ∧
    (validateCustomTimeSlot s d slots defaultMinStartTime defaultMaxEndTime =
        some .startsBeforeWindow ↔ 5 ≤ d ∧ d ≤ 120 ∧ s < 990) ∧
    (validateCustomTimeSlot s d slots defaultMinStartTime defaultMaxEndTime =
        some .endsAfterWindow ↔ 5 ≤ d ∧ d ≤ 120 ∧ 990 ≤ s ∧ 1200 < s + d) ∧
    (validateCustomTimeSlot s d slots defaultMinStartTime defaultMaxEndTime =
        some .overlapsExisting ↔ 5 ≤ d ∧ d ≤ 120 ∧ 990 ≤ s ∧ s + d ≤ 1200 ∧
          ∃ t ∈ slots, doTimeSlotsOverlap (createCustomTimeSlot s d) t = true) ∧
    (validateCustomTimeSlot s d slots defaultMinStartTime defaultMaxEndTime = none ↔
        5 ≤ d ∧ d ≤ 120 ∧ 990 ≤ s ∧ s + d ≤ 1200 ∧
          ∀ t ∈ slots, doTimeSlotsOverlap (createCustomTimeSlot s d) t = false) ∧
    validateCustomTimeSlot 975 15 [] defaultMinStartTime defaultMaxEndTime =
      some .startsBeforeWindow ∧
    validateCustomTimeSlot 1190 15 [] defaultMinStartTime defaultMaxEndTime =
      some .endsAfterWindow := by
  refine ⟨?_, ?_, ?_, ?_, ?_, ?_, by decide, by decide⟩ <;>
    · unfold validateCustomTimeSlot defaultMinStartTime defaultMaxEndTime
      dsimp only
      split_ifs with h1 h2 h3 h4 h5 <;>
        simp_all [List.any_eq_true, List.all_eq_true] <;> omega

/-- C10: the next-available-slot choice is made by start-time equality alone:
a returned slot is a canonical slot whose start differs from every assigned
start, none is returned exactly when every canonical start is taken, and with
the single assigned custom slot 16:30 to 17:30 the returned slot 16:45 to
17:00 overlaps the assigned one. -/
theorem c10_next_slot_by_start_equality :
    (∀ allSlots assigned t, getNextAvailableTimeSlot allSlots assigned = some t →
        (assigned.any (fun a => a.start = t.start)) = false ∧
        ∃ s ∈ allSlots, t = { s with isAvailable := true }) ∧
    (∀ allSlots assigned, getNextAvailableTimeSlot allSlots assigned = none ↔
        ∀ s ∈ allSlots, (assigned.any (fun a => a.start = s.start)) = true) ∧
    getNextAvailableTimeSlot generateTimeSlots
      [{ start := 990, «end» := 1050, isAvailable := true }] =
      some { start := 1005, «end» := 1020, isAvailable := true } ∧
    doTimeSlotsOverlap { start := 1005, «end» := 1020, isAvailable := true }
      { start := 990, «end» := 1050, isAvailable := true } = true := by
  refine ⟨?_, ?_, by decide, by decide⟩
  · intro allSlots assigned t ht
    unfold getNextAvailableTimeSlot getAvailableTimeSlots at ht
    have hmem := List.mem_of_mem_head? ht
    simp only [List.mem_map, List.mem_filter] at hmem
    obtain ⟨s, ⟨hsmem, hpred⟩, hst⟩ := hmem
    constructor
    · subst hst
      simpa using hpred
    · exact ⟨s, hsmem, hst.symm⟩
  · intro allSlots assigned
    unfold getNextAvailableTimeSlot getAvailableTimeSlots
    rw [List.head?_eq_none_iff, List.map_eq_nil_iff, List.filter_eq_nil_iff]
    constructor
    · intro h s hs
      have := h s hs
      simpa using this
    · intro h s hs
      simpa using h s hs

lemma sorted_getLast_max (l : List ScheduledHexagon) (h : ScheduledHexagon)
    (hsort : List.Sorted hexLE l) (hl : l.getLast? = some h) :
    ∀ g ∈ l, g.timeSlot.start ≤ h.timeSlot.start := by
  induction l with
  | nil => simp at hl
  | cons x xs ih =>
    cases xs with
    | nil =>
      simp at hl
      subst hl
      intro g hg
      simp at hg
      subst hg
      exact le_refl _
    | cons y ys =>
      have hl2 : (y :: ys).getLast? = some h := by
        rwa [List.getLast?_cons_cons] at hl
      intro g hg
      rcases List.mem_cons.mp hg with rfl | hg2
      · have hmem : h ∈ y :: ys := List.mem_of_getLast?_eq_some hl2
        exact (List.sorted_cons.mp hsort).1 h hmem
      · exact ih (List.sorted_cons.mp hsort).2 hl2 g hg2

/-- C8: the suggested next start is the window start for an empty schedule,
the end of a chronologically last assignment (one of maximal slot start) for a
non-empty schedule, and the function is deterministic. -/
theorem c8_suggested_start :
    getSuggestedStartTime [] = defaultMinStartTime ∧
    (∀ hs : List ScheduledHexagon, hs ≠ [] →
      ∃ h ∈ hs, getSuggestedStartTime hs = h.timeSlot.«end» ∧
        ∀ g ∈ hs, g.timeSlot.start ≤ h.timeSlot.start) ∧
    (∀ hs : List ScheduledHexagon, getSuggestedStartTime hs = getSuggestedStartTime hs) := by
  refine ⟨rfl, ?_, fun _ => rfl⟩
  intro hs hne
  unfold getSuggestedStartTime getLatestEndTime
  have hlen : ¬ hs.length = 0 := by simpa [List.length_eq_zero] using hne
  rw [if_neg hlen]
  have hperm : (sortScheduledHexagonsByTime hs).Perm hs := List.perm_insertionSort hexLE hs
  have hnil : sortScheduledHexagonsByTime hs ≠ [] := by
    intro hcon
    have := hperm.length_eq
    rw [hcon] at this
    simp at this
    exact hlen this.symm
  obtain ⟨h, hlast⟩ : ∃ h, (sortScheduledHexagonsByTime hs).getLast? = some h := by
    have : (sortScheduledHexagonsByTime hs).getLast? ≠ none := by
      simpa [List.getLast?_eq_none_iff] using hnil
    exact Option.ne_none_iff_exists'.mp this
  rw [hlast]
  refine ⟨h, hperm.mem_iff.mp (List.mem_of_getLast?_eq_some hlast), rfl, ?_⟩
  intro g hg
  exact sorted_getLast_max _ h (List.sorted_insertionSort hexLE hs) hlast g (hperm.mem_iff.mpr hg)

/-- Closed instance of c8_suggested_start discharging its nonemptiness
hypothesis on the worked example schedule. -/
theorem c8_suggested_start_witness :
    getSuggestedStartTime [] = defaultMinStartTime ∧
    ∃ h ∈ exampleABC, getSuggestedStartTime exampleABC = h.timeSlot.«end» ∧
      ∀ g ∈ exampleABC, g.timeSlot.start ≤ h.timeSlot.start :=
  ⟨c8_suggested_start.1, c8_suggested_start.2.1 exampleABC (by decide)⟩

/-- C5: when editing an existing assignment, the slots handed to the validator
are exactly the slots of the assignments strictly before the target in
chronological order, the empty list when the target is chronologically first,
and every such slot belongs to some current assignment. -/
theorem c5_edit_validation_scope (hexId : String) (current : List ScheduledHexagon) (idx : Nat)
    (hmem : current.any (fun h => h.hexagonId = hexId) = true)
    (hidx : (sortScheduledHexagonsByTime current).findIdx?
      (fun h => h.hexagonId = hexId) = some idx) :
    existingSlotsForValidation (some hexId) current =
      ((sortScheduledHexagonsByTime current).take idx).map (fun h => h.timeSlot) ∧
    (idx = 0 → existingSlotsForValidation (some hexId) current = []) ∧
    (∀ t ∈ existingSlotsForValidation (some hexId) current, ∃ h ∈ current, h.timeSlot = t) := by
  have heq : existingSlotsForValidation (some hexId) current =
      ((sortScheduledHexagonsByTime current).take idx).map (fun h => h.timeSlot) := by
    by_cases h0 : idx = 0
    · subst h0
      simp [existingSlotsForValidation, hmem, hidx]
    · simp [existingSlotsForValidation, hmem, hidx, h0]
  refine ⟨heq, ?_, ?_⟩
  · intro h0
    rw [heq, h0]
    simp
  · intro t ht
    rw [heq] at ht
    simp only [List.mem_map] at ht
    obtain ⟨h, hh, rfl⟩ := ht
    exact ⟨h, (List.perm_insertionSort hexLE current).mem_iff.mp (List.take_subset _ _ hh), rfl⟩

/-- Closed instance of c5_edit_validation_scope at the worked example with
target B, whose chronological index is 1. -/
theorem c5_edit_validation_scope_witness :
    existingSlotsForValidation (some "B") exampleABC =
      ((sortScheduledHexagonsByTime exampleABC).take 1).map (fun h => h.timeSlot) ∧
    ((1 : Nat) = 0 → existingSlotsForValidation (some "B") exampleABC = []) ∧
    (∀ t ∈ existingSlotsForValidation (some "B") exampleABC,
        ∃ h ∈ exampleABC, h.timeSlot = t) :=
  c5_edit_validation_scope "B" exampleABC 1 (by decide) (by decide)

lemma reflowAfter_head_start (p : Nat) (h : ScheduledHexagon) (rest : List ScheduledHexagon) :
    ∀ y ∈ (reflowAfter p (h :: rest)).head?, y.timeSlot.start = p := by
  intro y hy
  simp [reflowAfter] at hy
  subst hy
  rfl

lemma reflowAfter_chain (p : Nat) (l : List ScheduledHexagon) :
    List.Chain' (fun a b => b.timeSlot.start = a.timeSlot.«end») (reflowAfter p l) := by
  induction l generalizing p with
  | nil => simp [reflowAfter]
  | cons h rest ih =>
    rw [reflowAfter]
    rw [List.chain'_cons']
    refine ⟨?_, ih _⟩
    intro y hy
    cases rest with
    | nil => simp [reflowAfter] at hy
    | cons h2 r2 =>
      have := reflowAfter_head_start (p + durationOf h) h2 r2 y hy
      rw [this]

lemma reflowAfter_map_width (p : Nat) (l : List ScheduledHexagon) :
    (reflowAfter p l).map (fun h => h.timeSlot.«end» - h.timeSlot.start) = l.map durationOf := by
  induction l generalizing p with
  | nil => rfl
  | cons h rest ih => simp [reflowAfter, ih]

lemma reflowAfter_map_durationOf (p : Nat) (l : List ScheduledHexagon) :
    (reflowAfter p l).map durationOf = l.map durationOf := by
  induction l generalizing p with
  | nil => rfl
  | cons h rest ih => simp [reflowAfter, durationOf, ih]

lemma buildUpdated_drop (slot : TimeSlot) (duration : Nat) (sorted : List ScheduledHexagon)
    (idx : Nat) (target : ScheduledHexagon) (rest : List ScheduledHexagon)
    (hdrop : sorted.drop idx = target :: rest) :
    (buildUpdated slot duration sorted idx).drop idx =
      editAt slot duration target ::
        reflowAfter (editAt slot duration target).timeSlot.«end» rest := by
  have hlt : idx < sorted.length := by
    by_contra hle
    rw [List.drop_eq_nil_of_le (Nat.le_of_not_lt hle)] at hdrop
    exact List.noConfusion hdrop
  have hlen : (sorted.take idx).length = idx := by
    rw [List.length_take]
    omega
  rw [buildUpdated, hdrop]
  dsimp only
  nth_rewrite 1 [← hlen]
  exact List.drop_left _ _

/-- C1: after the edited assignment receives its new slot, every later
assignment in the working copy starts exactly at the end of its recomputed
predecessor and keeps its original duration (both as slot width and as
customDuration); the worked example of editing A to duration 30 yields
B at 17:00 to 17:15 and C at 17:15 to 17:35. -/
theorem c1_cascade_reflow (slot : TimeSlot) (duration : Nat)
    (sorted : List ScheduledHexagon) (idx : Nat)
    (target : ScheduledHexagon) (rest : List ScheduledHexagon)
    (hdrop : sorted.drop idx = target :: rest) :
    ((buildUpdated slot duration sorted idx).drop idx).head? =
      some (editAt slot duration target) ∧
    List.Chain' (fun a b => b.timeSlot.start = a.timeSlot.«end»)
      ((buildUpdated slot duration sorted idx).drop idx) ∧
    ((buildUpdated slot duration sorted idx).drop (idx + 1)).map
        (fun h => h.timeSlot.«end» - h.timeSlot.start) = rest.map durationOf ∧
    ((buildUpdated slot duration sorted idx).drop (idx + 1)).map durationOf =
      rest.map durationOf ∧
    handleCustomTimeSlotSelect (some "A") exampleAvail (createCustomTimeSlot 990 30) 30
        exampleABC =
      [{ hexagonId := "A", hexagonNumber := 1,
         timeSlot := { start := 990, «end» := 1020, isAvailable := true },
         polygonId := 0, customDuration := some 30 },
       { hexagonId := "B", hexagonNumber := 2,
         timeSlot := { start := 1020, «end» := 1035, isAvailable := true },
         polygonId := 0, customDuration := some 15 },
       { hexagonId := "C", hexagonNumber := 3,
         timeSlot := { start := 1035, «end» := 1055, isAvailable := true },
         polygonId := 0, customDuration := some 20 }] := by
  have hd := buildUpdated_drop slot duration sorted idx target rest hdrop
  have hd1 : (buildUpdated slot duration sorted idx).drop (idx + 1) =
      reflowAfter (editAt slot duration target).timeSlot.«end» rest := by
    have : (buildUpdated slot duration sorted idx).drop (idx + 1) =
        ((buildUpdated slot duration sorted idx).drop idx).drop 1 := by
      rw [List.drop_drop]
    rw [this, hd]
    rfl
  refine ⟨?_, ?_, ?_, ?_, by decide⟩
  · rw [hd]
    rfl
  · rw [hd, List.chain'_cons']
    refine ⟨?_, reflowAfter_chain _ _⟩
    intro y hy
    cases rest with
    | nil => simp [reflowAfter] at hy
    | cons h2 r2 => exact reflowAfter_head_start _ h2 r2 y hy
  · rw [hd1, reflowAfter_map_width]
  · rw [hd1, reflowAfter_map_durationOf]

/-- Closed instance of c1_cascade_reflow discharging its hypothesis on the
worked example: editing A, the chronologically first of three. -/
theorem c1_cascade_reflow_witness :
    ((buildUpdated (createCustomTimeSlot 990 30) 30
        (sortScheduledHexagonsByTime exampleABC) 0).drop 0).head? =
      some (editAt (createCustomTimeSlot 990 30) 30 exA) ∧
    List.Chain' (fun a b => b.timeSlot.start = a.timeSlot.«end»)
      ((buildUpdated (createCustomTimeSlot 990 30) 30
        (sortScheduledHexagonsByTime exampleABC) 0).drop 0) ∧
    ((buildUpdated (createCustomTimeSlot 990 30) 30
        (sortScheduledHexagonsByTime exampleABC) 0).drop 1).map
        (fun h => h.timeSlot.«end» - h.timeSlot.start) = [exB, exC].map durationOf ∧
    ((buildUpdated (createCustomTimeSlot 990 30) 30
        (sortScheduledHexagonsByTime exampleABC) 0).drop 1).map durationOf =
      [exB, exC].map durationOf ∧
    handleCustomTimeSlotSelect (some "A") exampleAvail (createCustomTimeSlot 990 30) 30
        exampleABC =
      [{ hexagonId := "A", hexagonNumber := 1,
         timeSlot := { start := 990, «end» := 1020, isAvailable := true },
         polygonId := 0, customDuration := some 30 },
       { hexagonId := "B", hexagonNumber := 2,
         timeSlot := { start := 1020, «end» := 1035, isAvailable := true },
         polygonId := 0, customDuration := some 15 },
       { hexagonId := "C", hexagonNumber := 3,
         timeSlot := { start := 1035, «end» := 1055, isAvailable := true },
         polygonId := 0, customDuration := some 20 }] :=
  c1_cascade_reflow (createCustomTimeSlot 990 30) 30
    (sortScheduledHexagonsByTime exampleABC) 0 exA [exB, exC] (by decide)

/-- C2: when the recomputed working copy ends past the window, the edit is
rejected and the schedule value is exactly the pre-edit one; the worked
example of editing A to duration 180 is rejected unchanged. -/
theorem c2_cascade_all_or_nothing (hexId : String) (avail : List String) (slot : TimeSlot)
    (duration : Nat) (hexes : List ScheduledHexagon) (idx : Nat) (lastH : ScheduledHexagon)
    (hmem : hexes.any (fun h => h.hexagonId = hexId) = true)
    (hidx : (sortScheduledHexagonsByTime hexes).findIdx?
      (fun h => h.hexagonId = hexId) = some idx)
    (hlast : (buildUpdated slot duration (sortScheduledHexagonsByTime hexes) idx).getLast? =
      some lastH)
    (hexceed : defaultMaxEndTime < lastH.timeSlot.«end») :
    handleCustomTimeSlotSelect (some hexId) avail slot duration hexes = hexes := by
  unfold handleCustomTimeSlotSelect
  dsimp only
  rw [if_pos hmem, hidx]
  dsimp only
  rw [hlast]
  rw [if_pos hexceed]

/-- Closed instance of c2_cascade_all_or_nothing: editing A of the worked
example to duration 180 pushes the recomputed C to end 20:05 and is rejected
with the schedule unchanged. -/
theorem c2_cascade_all_or_nothing_witness :
    handleCustomTimeSlotSelect (some "A") exampleAvail (createCustomTimeSlot 990 180) 180
      exampleABC = exampleABC :=
  c2_cascade_all_or_nothing "A" exampleAvail (createCustomTimeSlot 990 180) 180 exampleABC 0
    { hexagonId := "C", hexagonNumber := 3,
      timeSlot := { start := 1185, «end» := 1205, isAvailable := true },
      polygonId := 0, customDuration := some 20 }
    (by decide) (by decide) (by decide) (by decide)

lemma getLast?_cons_of_ne_nil {α : Type} (a : α) (l : List α) (hne : l ≠ []) :
    (a :: l).getLast? = l.getLast? := by
  cases l with
  | nil => exact absurd rfl hne
  | cons b m => exact List.getLast?_cons_cons

lemma validateCustomTimeSlot_none_window (s d : Nat) (slots : List TimeSlot)
    (hv : validateCustomTimeSlot s d slots defaultMinStartTime defaultMaxEndTime = none) :
    defaultMinStartTime ≤ s ∧ s + d ≤ defaultMaxEndTime := by
  unfold validateCustomTimeSlot at hv
  unfold defaultMinStartTime defaultMaxEndTime at hv ⊢
  dsimp only at hv
  split_ifs at hv <;> simp_all <;> omega

lemma reflowAfter_ne_nil (p : Nat) (x : ScheduledHexagon) (l : List ScheduledHexagon) :
    reflowAfter p (x :: l) ≠ [] := by
  simp [reflowAfter]

lemma reflowAfter_start_ge (p : Nat) (l : List ScheduledHexagon) :
    ∀ h ∈ reflowAfter p l, p ≤ h.timeSlot.start := by
  induction l generalizing p with
  | nil => simp [reflowAfter]
  | cons x rest ih =>
    intro h hm
    simp only [reflowAfter, List.mem_cons] at hm
    rcases hm with rfl | hm2
    · exact le_refl _
    · exact le_trans (Nat.le_add_right p _) (ih (p + durationOf x) h hm2)

lemma reflowAfter_end_le_sum (p : Nat) (l : List ScheduledHexagon) :
    ∀ h ∈ reflowAfter p l, h.timeSlot.«end» ≤ p + (l.map durationOf).sum := by
  induction l generalizing p with
  | nil => simp [reflowAfter]
  | cons x rest ih =>
    intro h hm
    simp only [reflowAfter, List.mem_cons] at hm
    rcases hm with rfl | hm2
    · simp
    · have := ih (p + durationOf x) h hm2
      simp only [List.map_cons, List.sum_cons]
      omega

lemma reflowAfter_getLast_end (p : Nat) (l : List ScheduledHexagon) (hne : l ≠ []) :
    ∃ lastH, (reflowAfter p l).getLast? = some lastH ∧
      lastH.timeSlot.«end» = p + (l.map durationOf).sum := by
  induction l generalizing p with
  | nil => exact absurd rfl hne
  | cons x rest ih =>
    cases rest with
    | nil =>
      refine ⟨{ x with
          timeSlot := { x.timeSlot with start := p, «end» := p + durationOf x },
          customDuration := some (durationOf x) }, ?_, ?_⟩
      · simp [reflowAfter]
      · simp
    | cons y r2 =>
      obtain ⟨lastH, h1, h2⟩ := ih (p + durationOf x) (by simp)
      refine ⟨lastH, ?_, ?_⟩
      · rw [reflowAfter]
        dsimp only
        rw [getLast?_cons_of_ne_nil _ _ (reflowAfter_ne_nil _ _ _)]
        exact h1
      · rw [h2]
        simp only [List.map_cons, List.sum_cons]
        omega

lemma mem_buildUpdated (slot : TimeSlot) (duration : Nat) (sorted : List ScheduledHexagon)
    (idx : Nat) (h : ScheduledHexagon) (hm : h ∈ buildUpdated slot duration sorted idx) :
    h ∈ sorted ∨ (∃ t ∈ sorted, h = editAt slot duration t) ∨
    (∃ target rest, sorted.drop idx = target :: rest ∧
      h ∈ reflowAfter (editAt slot duration target).timeSlot.«end» rest) := by
  cases hdrop : sorted.drop idx with
  | nil =>
    rw [buildUpdated, hdrop] at hm
    exact Or.inl hm
  | cons target rest =>
    rw [buildUpdated, hdrop] at hm
    dsimp only at hm
    rcases List.mem_append.mp hm with hm1 | hm2
    · exact Or.inl (List.take_subset _ _ hm1)
    · rcases List.mem_cons.mp hm2 with rfl | hm3
      · refine Or.inr (Or.inl ⟨target, ?_, rfl⟩)
        have htm : target ∈ sorted.drop idx := by
          rw [hdrop]
          exact List.mem_cons_self _ _
        exact List.drop_subset _ _ htm
      · exact Or.inr (Or.inr ⟨target, rest, rfl, hm3⟩)

lemma mem_handleCustomTimeSlotSelect (hexId : String) (avail : List String) (slot : TimeSlot)
    (duration : Nat) (hs : List ScheduledHexagon) (h : ScheduledHexagon)
    (hm : h ∈ handleCustomTimeSlotSelect (some hexId) avail slot duration hs) :
    h ∈ hs ∨
    h.timeSlot = slot ∨
    (∃ idx lastH,
      (sortScheduledHexagonsByTime hs).findIdx? (fun x => x.hexagonId = hexId) = some idx ∧
      (buildUpdated slot duration (sortScheduledHexagonsByTime hs) idx).getLast? = some lastH ∧
      lastH.timeSlot.«end» ≤ defaultMaxEndTime ∧
      h ∈ buildUpdated slot duration (sortScheduledHexagonsByTime hs) idx) := by
  unfold handleCustomTimeSlotSelect at hm
  dsimp only at hm
  by_cases hmem : hs.any (fun x => x.hexagonId = hexId) = true
  · rw [if_pos hmem] at hm
    cases hidx : (sortScheduledHexagonsByTime hs).findIdx? (fun x => x.hexagonId = hexId) with
    | none =>
      rw [hidx] at hm
      exact Or.inl hm
    | some idx =>
      rw [hidx] at hm
      dsimp only at hm
      cases hlast : (buildUpdated slot duration (sortScheduledHexagonsByTime hs) idx).getLast? with
      | none =>
        rw [hlast] at hm
        dsimp only at hm
        rw [if_neg (by omega)] at hm
        rcases List.mem_map.mp hm with ⟨x, hx, hxe⟩
        cases hfind : (buildUpdated slot duration (sortScheduledHexagonsByTime hs) idx).find?
            (fun u => u.hexagonId = x.hexagonId) with
        | none =>
          rw [hfind] at hxe
          dsimp only at hxe
          exact Or.inl (hxe ▸ hx)
        | some u =>
          exact absurd (List.getLast?_eq_none_iff.mp hlast ▸ List.mem_of_find?_eq_some hfind)
            (List.not_mem_nil u)
      | some lastH =>
        rw [hlast] at hm
        dsimp only at hm
        by_cases hguard : lastH.timeSlot.«end» > defaultMaxEndTime
        · rw [if_pos hguard] at hm
          exact Or.inl hm
        · rw [if_neg hguard] at hm
          rcases List.mem_map.mp hm with ⟨x, hx, hxe⟩
          cases hfind : (buildUpdated slot duration (sortScheduledHexagonsByTime hs) idx).find?
              (fun u => u.hexagonId = x.hexagonId) with
          | none =>
            rw [hfind] at hxe
            dsimp only at hxe
            exact Or.inl (hxe ▸ hx)
          | some u =>
            rw [hfind] at hxe
            dsimp only at hxe
            refine Or.inr (Or.inr ⟨idx, lastH, rfl, hlast, by omega, ?_⟩)
            exact hxe ▸ List.mem_of_find?_eq_some hfind
  · rw [if_neg hmem] at hm
    rcases List.mem_append.mp hm with hm1 | hm2
    · exact Or.inl hm1
    · simp only [List.mem_singleton] at hm2
      subst hm2
      exact Or.inr (Or.inl rfl)

lemma nextSlot_in_window (xs : List TimeSlot) (t : TimeSlot)
    (ht : getNextAvailableTimeSlot generateTimeSlots xs = some t) :
    defaultMinStartTime ≤ t.start ∧ t.«end» ≤ defaultMaxEndTime := by
  unfold getNextAvailableTimeSlot getAvailableTimeSlots at ht
  have hmem := List.mem_of_mem_head? ht
  simp only [List.mem_map, List.mem_filter] at hmem
  obtain ⟨s, ⟨hsmem, _⟩, hst⟩ := hmem
  subst hst
  have hall : ∀ s2 ∈ generateTimeSlots,
      defaultMinStartTime ≤ s2.start ∧ s2.«end» ≤ defaultMaxEndTime := by decide
  exact hall s hsmem

/-- Amended C4: every schedule state reachable through the mutation operations
keeps every slot inside the operating window. The no-overlap half of the
claimed invariant does not hold; see the counterexample. -/
theorem c4_window_invariant (avail : List String) (hs : List ScheduledHexagon)
    (hr : ReachableSchedule avail hs) :
    ∀ h ∈ hs, slotInWindow h.timeSlot := by
  induction hr with
  | empty =>
    intro h hm
    exact absurd hm (List.not_mem_nil h)
  | selectTime hs0 hexId s d hr0 hv ih =>
    intro h hm
    have hb := validateCustomTimeSlot_none_window s d _ hv
    rcases mem_handleCustomTimeSlotSelect hexId avail _ d hs0 h hm with hh | hh | hh
    · exact ih h hh
    · rw [slotInWindow, hh]
      exact ⟨hb.1, hb.2⟩
    · obtain ⟨idx, lastH, hidx, hlast, hle, hmem2⟩ := hh
      rcases mem_buildUpdated _ d _ idx h hmem2 with hb1 | hb1 | hb1
      · exact ih h ((List.perm_insertionSort hexLE hs0).mem_iff.mp hb1)
      · obtain ⟨t, ht, rfl⟩ := hb1
        refine ⟨?_, ?_⟩ <;> simp [editAt, createCustomTimeSlot, slotInWindow] <;> omega
      · obtain ⟨target, rest, hdrop, hmemr⟩ := hb1
        have hstart := reflowAfter_start_ge _ _ h hmemr
        have hendsum := reflowAfter_end_le_sum _ _ h hmemr
        have hp : (editAt (createCustomTimeSlot s d) d target).timeSlot.«end» = s + d := rfl
        rw [hp] at hstart hendsum
        constructor
        · unfold defaultMinStartTime at hb ⊢
          omega
        · cases rest with
          | nil => simp [reflowAfter] at hmemr
          | cons y r2 =>
            obtain ⟨L, hL1, hL2⟩ := reflowAfter_getLast_end (s + d) (y :: r2) (by simp)
            have hup : (buildUpdated (createCustomTimeSlot s d) d
                (sortScheduledHexagonsByTime hs0) idx).getLast? =
                (reflowAfter (s + d) (y :: r2)).getLast? := by
              rw [buildUpdated, hdrop]
              dsimp only
              rw [List.getLast?_append_of_ne_nil _ (List.cons_ne_nil _ _)]
              rw [hp]
              exact getLast?_cons_of_ne_nil _ _ (reflowAfter_ne_nil _ _ _)
            rw [hup, hL1] at hlast
            have hLeq : L = lastH := Option.some.inj hlast
            subst hLeq
            rw [hL2] at hle
            omega
  | autoAssign hs0 hexId n pid hr0 ih =>
    intro h hm
    unfold handleHexagonSelect at hm
    cases hns : getNextAvailableTimeSlot generateTimeSlots (hs0.map (fun x => x.timeSlot)) with
    | none =>
      rw [hns] at hm
      exact ih h hm
    | some t =>
      rw [hns] at hm
      rcases List.mem_append.mp hm with h1 | h2
      · exact ih h h1
      · simp only [List.mem_singleton] at h2
        subst h2
        exact nextSlot_in_window _ t hns
  | remove hs0 hexId hr0 ih =>
    intro h hm
    exact ih h (List.mem_of_mem_filter hm)

/-- C4 counterexample: a schedule state reachable through the mutation
operations, all of whose submissions passed validation, that contains two
distinct assignments with overlapping slots; so the claimed invariant fails
on the code. -/
theorem c4_counterexample :
    ReachableSchedule exampleAvail cexBad ∧
    ∃ a ∈ cexBad, ∃ b ∈ cexBad, a ≠ b ∧ doTimeSlotsOverlap a.timeSlot b.timeSlot = true := by
  constructor
  · have r0 : ReachableSchedule exampleAvail [] := ReachableSchedule.empty
    have r1 := ReachableSchedule.selectTime [] "A" 1020 60 r0 (by decide)
    rw [show handleCustomTimeSlotSelect (some "A") exampleAvail (createCustomTimeSlot 1020 60) 60 []
        = [cexHexA] from by decide] at r1
    have r2 := ReachableSchedule.selectTime [cexHexA] "B" 1080 15 r1 (by decide)
    rw [show handleCustomTimeSlotSelect (some "B") exampleAvail (createCustomTimeSlot 1080 15) 15
        [cexHexA] = [cexHexA, cexHexB] from by decide] at r2
    have r3 := ReachableSchedule.selectTime [cexHexA, cexHexB] "C" 1095 30 r2 (by decide)
    rw [show handleCustomTimeSlotSelect (some "C") exampleAvail (createCustomTimeSlot 1095 30) 30
        [cexHexA, cexHexB] = [cexHexA, cexHexB, cexHexC] from by decide] at r3
    have r4 := ReachableSchedule.selectTime [cexHexA, cexHexB, cexHexC] "B" 990 15 r3 (by decide)
    rw [show handleCustomTimeSlotSelect (some "B") exampleAvail (createCustomTimeSlot 990 15) 15
        [cexHexA, cexHexB, cexHexC] = cexBad from by decide] at r4
    exact r4
  · decide

/-- Closed instance of c4_window_invariant at a one-step reachable state: the
single auto-assigned slot lies in the window. -/
theorem c4_window_invariant_witness :
    slotInWindow
      ({ hexagonId := "A", hexagonNumber := 1,
         timeSlot := { start := 990, «end» := 1005, isAvailable := true },
         polygonId := 0, customDuration := none : ScheduledHexagon }).timeSlot :=
  c4_window_invariant exampleAvail
    [{ hexagonId := "A", hexagonNumber := 1,
       timeSlot := { start := 990, «end» := 1005, isAvailable := true },
       polygonId := 0, customDuration := none }]
    (by
      have r := @ReachableSchedule.autoAssign exampleAvail [] "A" 1 0
        ReachableSchedule.empty
      rwa [show handleHexagonSelect "A" 1 0 [] =
          [{ hexagonId := "A", hexagonNumber := 1,
             timeSlot := { start := 990, «end» := 1005, isAvailable := true },
             polygonId := 0, customDuration := none }] from by decide] at r)
    _ (List.mem_cons_self _ _)

/-- Closed instance of c3_validator_order at the first spec example input. -/
theorem c3_validator_order_witness :
    validateCustomTimeSlot 975 15 [] defaultMinStartTime defaultMaxEndTime =
        some .startsBeforeWindow ↔ 5 ≤ 15 ∧ 15 ≤ 120 ∧ 975 < 990 :=
  (c3_validator_order 975 15 []).2.2.1

/-- Closed instance of c6_overlap_halfopen at the two touching example
slots. -/
theorem c6_overlap_halfopen_witness :
    (doTimeSlotsOverlap exA.timeSlot exB.timeSlot = true ↔
      (exA.timeSlot.start < exB.timeSlot.«end» ∧ exB.timeSlot.start < exA.timeSlot.«end»)) ∧
    doTimeSlotsOverlap exA.timeSlot exB.timeSlot = false ∧
    validateCustomTimeSlot 1005 15 [exA.timeSlot] defaultMinStartTime defaultMaxEndTime = none :=
  c6_overlap_halfopen exA.timeSlot exB.timeSlot

/-- Closed instance of c9_removal_frame removing B from the worked example. -/
theorem c9_removal_frame_witness :
    (∀ h ∈ exampleABC, ¬ h.hexagonId = "B" → h ∈ handleRemoveHexagon "B" exampleABC) ∧
    (∀ h ∈ handleRemoveHexagon "B" exampleABC, h ∈ exampleABC ∧ ¬ h.hexagonId = "B") ∧
    (handleRemoveHexagon "B" exampleABC).length =
      exampleABC.length - (exampleABC.filter (fun h => h.hexagonId = "B")).length ∧
    handleRemoveHexagon "B" exampleABC = [exA, exC] :=
  c9_removal_frame "B" exampleABC

/-- Closed instance of the first part of c10_next_slot_by_start_equality at
the overlapping-custom-slot example. -/
theorem c10_next_slot_by_start_equality_witness :
    ([{ start := 990, «end» := 1050, isAvailable := true }] : List TimeSlot).any
        (fun a => a.start = (1005 : Nat)) = false ∧
    ∃ s ∈ generateTimeSlots,
      ({ start := 1005, «end» := 1020, isAvailable := true } : TimeSlot) =
        { s with isAvailable := true } := by
  have h := c10_next_slot_by_start_equality.1 generateTimeSlots
    [{ start := 990, «end» := 1050, isAvailable := true }]
    { start := 1005, «end» := 1020, isAvailable := true } (by decide)
  exact h
